import Mathlib

/-!
# Verification of the MIDRC Diversity Calculator chart pipeline

A shallow embedding of the chart-building logic of `jsdview.py` and of the
spreadsheet column selection of `excelparse.py`, together with theorems about
the behaviour of those functions.

Conventions of the embedding:
* pandas/Python floats are modelled as exact rationals (`ℚ`);
* a pandas division whose divisor is zero yields a non-finite float
  (`inf`/`-inf`/`NaN`), never a number; this is modelled by `Option ℚ`
  with `none` standing for any non-finite result;
* timestamps (`QDateTime.toMSecsSinceEpoch`) are modelled as `Int`
  milliseconds;
* a Python function that raises is modelled by an explicit error value.
-/

/-- Substring test on character lists: `containsSub pat s` holds exactly when
`pat` occurs contiguously inside `s`.  Models Python's `pat in s`. -/
def containsSub (pat : List Char) : List Char → Bool
  | [] => pat.isEmpty
  | c :: cs => pat.isPrefixOf (c :: cs) || containsSub pat cs

/-- Division as performed by `pandas.DataFrame.div`: dividing by zero produces
a non-finite float (`NaN` when the numerator is also zero, `±inf` otherwise),
modelled uniformly as `none`; otherwise the exact quotient. -/
def pandasDiv (a b : ℚ) : Option ℚ := if b = 0 then none else some (a / b)

/-- One sheet of one data source as consumed by the chart builders of
`jsdview.py`: the `date` column (as millisecond timestamps), the category
column names (`sheets[category].data_columns`, the `cols_to_use` of the code)
and the numeric rows of `df[cols_to_use]`, one inner list per row, parallel to
`colNames`. -/
structure SheetData where
  dates : List Int
  colNames : List String
  rows : List (List ℚ)
deriving DecidableEq

/-- Well-formedness of a sheet: at least one row, one date per row, and each
row has one value per category column. -/
def SheetData.wf (sd : SheetData) : Prop :=
  sd.rows ≠ [] ∧ sd.rows.length = sd.dates.length ∧
    ∀ r ∈ sd.rows, r.length = sd.colNames.length

instance (sd : SheetData) : Decidable sd.wf := by
  unfold SheetData.wf; infer_instance

/-- `total_counts = df[cols_to_use].sum(axis=1)` for one row: the sum of the
row's category values. -/
def totalCounts (r : List ℚ) : ℚ := r.sum

/-- `df[cols_to_use].cumsum(axis=1)` for one row at column index `c`: the sum
of the values in columns `0..c`. -/
def cumsumAt (r : List ℚ) (c : Nat) : ℚ := (r.take (c + 1)).sum

/-- `cumulative_percents = 100.0 * df[cols_to_use].cumsum(axis=1)
.div(total_counts, axis=0)` for one row at column index `c`.  A zero row
total makes the pandas division non-finite (`none`). -/
def cumPercent (r : List ℚ) (c : Nat) : Option ℚ :=
  (pandasDiv (cumsumAt r c) (totalCounts r)).map (fun q => 100 * q)

/-- The latest row of the sheet, `df.iloc[-1]`. -/
def lastRow (sd : SheetData) : List ℚ := sd.rows.getLastD []

/-- The data points generated by `update_area_chart` for category column `c`:
one `(timestamp, cumulative percent)` point per row, and — when the table has
exactly one row — an extra synthesized point one millisecond later with the
same cumulative value. -/
def seriesPoints (sd : SheetData) (c : Nat) : List (Int × Option ℚ) :=
  let base := (sd.dates.zip sd.rows).map (fun p => (p.1, cumPercent p.2 c))
  if sd.dates.length = 1 then
    base ++ [(sd.dates.headD 0 + 1, cumPercent (sd.rows.headD []) c)]
  else base

/-- The per-sheet series construction of `JsdWindow.update_area_chart`
(`jsdview.py`): iterate over the category columns in order, skip every column
whose value at the latest row (`df[col].iloc[-1]`) is exactly `0`, and emit
for each remaining column its index, its name and its point list. -/
def update_area_chart (sd : SheetData) : List (Nat × String × List (Int × Option ℚ)) :=
  (List.range sd.colNames.length).filterMap (fun c =>
    if (lastRow sd).getD c 0 = 0 then none
    else some (c, sd.colNames.getD c "", seriesPoints sd c))

example : cumPercent [50, 50] 0 = some 50 := by
  norm_num [cumPercent, cumsumAt, totalCounts, pandasDiv]

example : cumPercent [(0 : ℚ), 0] 0 = none := by
  norm_num [cumPercent, cumsumAt, totalCounts, pandasDiv]

/-- A two-column table whose second column is nonzero in the first row but
exactly zero in the final row, so the final-row-zero rule drops it. -/
def exC1 : SheetData := ⟨[0, 1], ["A", "B"], [[50, 50], [100, 0]]⟩

/-- C1, counterexample: in `exC1` column `B` is dropped by the final-row-zero
rule, so column `A` (index 0) is the last retained column; the first row has
nonzero total, yet its cumulative percent at column `A` is `50`, not `100`:
the dropped column still participates in the row total. -/
theorem C1_counterexample :
    ((lastRow exC1).getD 1 0 = 0) ∧
    ((lastRow exC1).getD 0 0 ≠ 0) ∧
    ((update_area_chart exC1).map (fun e => e.1) = [0]) ∧
    exC1.rows[0]? = some [50, 50] ∧
    totalCounts [(50 : ℚ), 50] ≠ 0 ∧
    cumPercent [(50 : ℚ), 50] 0 ≠ some 100 := by
  refine ⟨by decide, by decide, ?_, rfl, ?_, ?_⟩
  · norm_num [update_area_chart, lastRow, seriesPoints, exC1,
      List.range_succ, List.filterMap_cons]
  · norm_num [totalCounts]
  · norm_num [cumPercent, cumsumAt, totalCounts, pandasDiv]

/-- C1, amended: for every well-formed SourceTable and every row whose total
across all category columns is nonzero, the cumulative percent at the *last
category column* (the final column of `cols_to_use`, retained or not) is
exactly `100`. -/
theorem C1_last_column_cumulative_100 (sd : SheetData) (hwf : sd.wf) :
    ∀ r ∈ sd.rows, totalCounts r ≠ 0 →
      cumPercent r (sd.colNames.length - 1) = some 100 := by
  intro r hr htot
  obtain ⟨-, -, hlen⟩ := hwf
  have hlenr : r.length = sd.colNames.length := hlen r hr
  have hne : r ≠ [] := by
    intro h
    exact htot (by simp [h, totalCounts])
  have hpos : 0 < r.length := List.length_pos.mpr hne
  have hidx : sd.colNames.length - 1 + 1 = r.length := by omega
  unfold cumPercent cumsumAt pandasDiv
  rw [hidx, List.take_length]
  have htot' : totalCounts r ≠ 0 := htot
  simp only [totalCounts] at htot' ⊢
  rw [if_neg htot']
  simp [div_self htot']

/-- C1, witness for the amended theorem at the concrete table `exC1`. -/
theorem C1_witness :
    exC1.wf ∧
    ∀ r ∈ exC1.rows, totalCounts r ≠ 0 →
      cumPercent r (exC1.colNames.length - 1) = some 100 :=
  ⟨by decide, C1_last_column_cumulative_100 exC1 (by decide)⟩

/-- C2: a category column whose value at the latest row is exactly `0`
contributes no series to the area chart, no matter what its earlier values
were: every emitted series carries the index of a column whose final value is
nonzero. -/
theorem C2_zero_final_column_dropped (sd : SheetData) (c : Nat)
    (h : (lastRow sd).getD c 0 = 0) :
    ∀ e ∈ update_area_chart sd, e.1 ≠ c := by
  intro e he hec
  unfold update_area_chart at he
  simp only [List.mem_filterMap, List.mem_range] at he
  obtain ⟨c', _, he⟩ := he
  split at he
  · exact (Option.noConfusion he)
  · next hz =>
      cases he
      have hc : c' = c := hec
      subst hc
      exact hz h

/-- C2, witness: a table whose first column has a nonzero history but a zero
final value yields no series for column index `0`. -/
theorem C2_witness :
    ((lastRow ⟨[0, 1], ["A", "B"], [[70, 30], [0, 100]]⟩).getD 0 0 = 0) ∧
    ∀ e ∈ update_area_chart ⟨[0, 1], ["A", "B"], [[70, 30], [0, 100]]⟩,
      e.1 ≠ 0 :=
  ⟨by decide,
   C2_zero_final_column_dropped ⟨[0, 1], ["A", "B"], [[70, 30], [0, 100]]⟩ 0
     (by decide)⟩

/-- C8: when the table has exactly one row, every emitted area-chart series
consists of exactly two points, the second one millisecond later than the
first and carrying the same cumulative-percent value. -/
theorem C8_single_row_series_has_two_points (sd : SheetData)
    (hd : sd.dates.length = 1) (hr : sd.rows.length = 1) :
    ∀ e ∈ update_area_chart sd, ∃ t v, e.2.2 = [(t, v), (t + 1, v)] := by
  intro e he
  obtain ⟨d, hdd⟩ := List.length_eq_one.mp hd
  obtain ⟨r, hrr⟩ := List.length_eq_one.mp hr
  unfold update_area_chart at he
  simp only [List.mem_filterMap, List.mem_range] at he
  obtain ⟨c, -, he⟩ := he
  split at he
  · exact Option.noConfusion he
  · cases he
    exact ⟨d, cumPercent r c, by simp [seriesPoints, hdd, hrr]⟩

/-- C8, witness at a concrete single-row table. -/
theorem C8_witness :
    ((⟨[5], ["A", "B"], [[40, 60]]⟩ : SheetData).dates.length = 1 ∧
     (⟨[5], ["A", "B"], [[40, 60]]⟩ : SheetData).rows.length = 1) ∧
    ∀ e ∈ update_area_chart ⟨[5], ["A", "B"], [[40, 60]]⟩,
      ∃ t v, e.2.2 = [(t, v), (t + 1, v)] :=
  ⟨⟨rfl, rfl⟩,
   C8_single_row_series_has_two_points ⟨[5], ["A", "B"], [[40, 60]]⟩ rfl rfl⟩

/-- The pie series built by `JsdWindow.update_pie_chart_dock` for one sheet
and one category: one `(column name, value)` slice per category column whose
value at the latest row (`df[col].iloc[timepoint]` with `timepoint = -1`) is
strictly positive. -/
def pieSeries (sd : SheetData) : List (String × ℚ) :=
  (sd.colNames.zip (lastRow sd)).filter (fun p => decide (0 < p.2))

/-- The chart decision of `update_pie_chart_dock`: a chart is created for the
category only when the filtered series is nonempty (`not series.isEmpty()`);
otherwise no chart is produced at all. -/
def update_pie_chart_dock (sd : SheetData) : Option (List (String × ℚ)) :=
  if (pieSeries sd).isEmpty then none else some (pieSeries sd)

/-- C4: every emitted pie slice is drawn from the latest row and has a
strictly positive value; if every value at the latest row is `≤ 0` no chart
is created; and a created chart is never an empty shell. -/
theorem C4_pie_slices_positive_from_latest_row (sd : SheetData)
    (hrows : sd.rows ≠ []) :
    (∀ p ∈ pieSeries sd, p ∈ sd.colNames.zip (lastRow sd) ∧ 0 < p.2) ∧
    ((∀ v ∈ lastRow sd, v ≤ 0) → update_pie_chart_dock sd = none) ∧
    (∀ out, update_pie_chart_dock sd = some out → out ≠ []) := by
  refine ⟨?_, ?_, ?_⟩
  · intro p hp
    rw [pieSeries, List.mem_filter] at hp
    exact ⟨hp.1, by simpa using hp.2⟩
  · intro hall
    rw [update_pie_chart_dock, if_pos]
    rw [List.isEmpty_iff, pieSeries, List.filter_eq_nil_iff]
    intro p hp
    have hv : p.2 ∈ lastRow sd := (List.of_mem_zip hp).2
    simpa using not_lt.mpr (hall p.2 hv)
  · intro out hout
    rw [update_pie_chart_dock] at hout
    split at hout
    · exact Option.noConfusion hout
    · next hne =>
        cases hout
        rw [List.isEmpty_iff] at hne
        exact hne

/-- C4, witness at a concrete sheet: latest-row values `2, 0, 3`. -/
theorem C4_witness :
    ((⟨[0], ["A", "B", "C"], [[2, 0, 3]]⟩ : SheetData).rows ≠ []) ∧
    ((∀ p ∈ pieSeries ⟨[0], ["A", "B", "C"], [[2, 0, 3]]⟩,
        p ∈ (["A", "B", "C"] : List String).zip
          (lastRow ⟨[0], ["A", "B", "C"], [[2, 0, 3]]⟩) ∧ 0 < p.2) ∧
     ((∀ v ∈ lastRow ⟨[0], ["A", "B", "C"], [[2, 0, 3]]⟩, v ≤ 0) →
        update_pie_chart_dock ⟨[0], ["A", "B", "C"], [[2, 0, 3]]⟩ = none) ∧
     (∀ out, update_pie_chart_dock ⟨[0], ["A", "B", "C"], [[2, 0, 3]]⟩ =
        some out → out ≠ [])) :=
  ⟨by decide,
   C4_pie_slices_positive_from_latest_row ⟨[0], ["A", "B", "C"], [[2, 0, 3]]⟩
     (by decide)⟩

/-- One entry of `spider_plot_values_dict`: the comparison pair `(i, j)` of
source indices, the ordered key list of the entry's per-category dict, and
the dict lookup itself (total, since the code indexes
`spider_plot_values[label]` directly). -/
structure SpiderEntry where
  i : Nat
  j : Nat
  keys : List String
  val : String → ℚ

/-- An axis attached to the polar chart: the angular `QCategoryAxis` with its
`(label, angle)` pairs, or the radial `QValueAxis` with its range. -/
inductive SpiderAxis where
  | angular (labels : List (String × ℚ))
  | radial (lo hi : ℚ)
deriving DecidableEq

/-- The part of the polar chart state that `update_spider_chart` touches:
its series (name and point list) and its axes. -/
structure SpiderChart where
  series : List (String × List (ℚ × ℚ))
  axes : List SpiderAxis
deriving DecidableEq

/-- Result of a call to `update_spider_chart`: `ok st b` models a normal
return of `b` with the chart in state `st`; `err` models an uncaught Python
exception (`ZeroDivisionError` from `360 / len(labels)` when the first
entry has no keys, `ValueError` from `max()` on an empty sequence). -/
inductive SpiderOutcome where
  | ok (chart : SpiderChart) (updated : Bool)
  | err
deriving DecidableEq

/-- Python's `max` over a list, `none` for the empty list on which `max`
raises `ValueError`. -/
def pyMax : List ℚ → Option ℚ
  | [] => none
  | [a] => some a
  | a :: b :: rest => (pyMax (b :: rest)).map (fun m => max a m)

/-- The point list `update_spider_chart` appends to one `QLineSeries`: one
point per label at angle `step_size * i` (the same angle list that labels
the angular axis), followed by the closing point at angle `360` carrying
`series.points()[0].y()` — the y of the *first* appended point. -/
def spiderPoints (labels : List String) (step : ℚ) (e : SpiderEntry) :
    List (ℚ × ℚ) :=
  let pts := (((List.range labels.length).map
      (fun i : Nat => step * (i : ℚ))).zip labels).map
      (fun al => (al.1, e.val al.2))
  pts ++ [(360, (pts.headD (0, 0)).2)]

/-- `JsdWindow.update_spider_chart` (`jsdview.py`): returns `False` at once
on an empty dict, leaving series and axes untouched; otherwise clears the
chart, lays the first entry's keys out at equal angular spacing over 360°,
ranges the radial axis from 0 to the maximum value over all entries, adds
one closed polygon per entry named after the pair's files, and returns
`True`.  `fd n` models `file_comboboxes[n].currentData()`. -/
def update_spider_chart (fd : Nat → String) (st : SpiderChart) :
    List SpiderEntry → SpiderOutcome
  | [] => .ok st false
  | e0 :: rest =>
    if e0.keys.length = 0 then .err
    else
      match pyMax (((e0 :: rest).map (fun e => e.keys.map e.val)).flatten) with
      | none => .err
      | some m =>
          .ok
            ⟨(e0 :: rest).map (fun e =>
                (fd e.i ++ " vs " ++ fd e.j,
                 spiderPoints e0.keys (360 / (e0.keys.length : ℚ)) e)),
             [.angular (e0.keys.zip ((List.range e0.keys.length).map
                 (fun i : Nat => (360 / (e0.keys.length : ℚ)) * (i : ℚ)))),
              .radial 0 m]⟩
            true

theorem pyMax_cons_isSome (a : ℚ) (l : List ℚ) :
    ∃ m, pyMax (a :: l) = some m := by
  induction l generalizing a with
  | nil => exact ⟨a, rfl⟩
  | cons b t ih =>
      obtain ⟨m, hm⟩ := ih b
      exact ⟨max a m, by simp [pyMax, hm]⟩

/-- Unfolding of `update_spider_chart` on a nonempty dict whose first entry
has at least one key. -/
theorem update_spider_chart_cons_eq (fd : Nat → String) (st : SpiderChart)
    (e0 : SpiderEntry) (rest : List SpiderEntry) (hk : e0.keys ≠ []) :
    ∃ m, update_spider_chart fd st (e0 :: rest) =
      .ok
        ⟨(e0 :: rest).map (fun e =>
            (fd e.i ++ " vs " ++ fd e.j,
             spiderPoints e0.keys (360 / (e0.keys.length : ℚ)) e)),
         [.angular (e0.keys.zip ((List.range e0.keys.length).map
             (fun i : Nat => (360 / (e0.keys.length : ℚ)) * (i : ℚ)))),
          .radial 0 m]⟩
        true := by
  obtain ⟨k0, krest, hkeys⟩ : ∃ k0 krest, e0.keys = k0 :: krest := by
    cases h : e0.keys with
    | nil => exact absurd h hk
    | cons k0 krest => exact ⟨k0, krest, rfl⟩
  have hjoin : ((e0 :: rest).map (fun e => e.keys.map e.val)).flatten =
      e0.val k0 ::
        (krest.map e0.val ++
          (rest.map (fun e => e.keys.map e.val)).flatten) := by
    simp [hkeys]
  obtain ⟨m, hm⟩ := pyMax_cons_isSome (e0.val k0)
    (krest.map e0.val ++ (rest.map (fun e => e.keys.map e.val)).flatten)
  have hlen : ¬ e0.keys.length = 0 := by simp [hkeys]
  refine ⟨m, ?_⟩
  simp only [update_spider_chart]
  rw [if_neg hlen, hjoin, hm]

theorem spiderPoints_length (labels : List String) (step : ℚ)
    (e : SpiderEntry) :
    (spiderPoints labels step e).length = labels.length + 1 := by
  simp [spiderPoints]

theorem spiderPoints_getElem_lt (labels : List String) (step : ℚ)
    (e : SpiderEntry) (i : Nat) (l : String) (hi : labels[i]? = some l) :
    (spiderPoints labels step e)[i]? = some (step * (i : ℚ), e.val l) := by
  have hilen : i < labels.length := by
    by_contra hge
    rw [List.getElem?_eq_none (Nat.le_of_not_lt hge)] at hi
    exact Option.noConfusion hi
  simp only [spiderPoints]
  rw [List.getElem?_append, if_pos (by simpa using hilen)]
  rw [List.getElem?_map]
  rw [show ((((List.range labels.length).map
      (fun i : Nat => step * (i : ℚ))).zip labels)[i]? :
        Option (ℚ × String)) = some (step * (i : ℚ), l) by
    simp [List.getElem?_zip_eq_some, List.getElem?_range hilen, hi]]
  rfl

theorem spiderPoints_head_and_closing (labels : List String) (step : ℚ)
    (e : SpiderEntry) (hk : labels ≠ []) :
    (spiderPoints labels step e)[0]? =
      some (step * 0, e.val (labels.headD "")) ∧
    (spiderPoints labels step e)[labels.length]? =
      some (360, e.val (labels.headD "")) := by
  obtain ⟨l0, lt, hl⟩ : ∃ l0 lt, labels = l0 :: lt := by
    cases h : labels with
    | nil => exact absurd h hk
    | cons l0 lt => exact ⟨l0, lt, rfl⟩
  subst hl
  have hpts : ((((List.range (l0 :: lt).length).map
        (fun i : Nat => step * (i : ℚ))).zip (l0 :: lt)).map
        (fun al => (al.1, e.val al.2))) =
      (step * 0, e.val l0) ::
        ((((List.range lt.length).map
            (fun i : Nat => step * ((i + 1 : Nat) : ℚ))).zip lt).map
          (fun al => (al.1, e.val al.2))) := by
    simp [List.range_succ_eq_map, List.zip_map_left, Function.comp]
  constructor
  · simp only [spiderPoints]
    rw [List.getElem?_append, if_pos (by simp)]
    rw [hpts]
    simp
  · simp only [spiderPoints]
    rw [List.getElem?_append_right (by simp)]
    rw [hpts]
    simp
/-- C7: on an empty comparison-pair mapping, `update_spider_chart` returns
`False` without error and without touching the existing series and axes:
the chart state is returned unchanged. -/
theorem C7_empty_dict_returns_false (fd : Nat → String) (st : SpiderChart) :
    update_spider_chart fd st [] = .ok st false := rfl

/-- C5: on a nonempty dict whose first entry has at least one key, the
update succeeds and every produced polygon series has exactly
`len(categories) + 1` points, point `i` at angle `i * (360 /
len(categories))` carrying that pair's value for category `i`, and point `0`
and point `len(categories)` carrying equal radial values. -/
theorem C5_spider_polygon_shape (fd : Nat → String) (st : SpiderChart)
    (e0 : SpiderEntry) (rest : List SpiderEntry) (hk : e0.keys ≠ []) :
    ∃ out, update_spider_chart fd st (e0 :: rest) = .ok out true ∧
      out.series.length = (e0 :: rest).length ∧
      ∀ (k : Nat) (e : SpiderEntry), (e0 :: rest)[k]? = some e →
        ∃ pts : List (ℚ × ℚ), out.series[k]? = some (fd e.i ++ " vs " ++ fd e.j, pts) ∧
          pts.length = e0.keys.length + 1 ∧
          (∀ (i : Nat) (l : String), e0.keys[i]? = some l →
            pts[i]? = some ((i : ℚ) * (360 / (e0.keys.length : ℚ)), e.val l)) ∧
          pts[0]?.map Prod.snd = pts[e0.keys.length]?.map Prod.snd := by
  obtain ⟨m, hm⟩ := update_spider_chart_cons_eq fd st e0 rest hk
  refine ⟨_, hm, by simp, ?_⟩
  intro k e hke
  refine ⟨spiderPoints e0.keys (360 / (e0.keys.length : ℚ)) e, ?_, ?_, ?_, ?_⟩
  · simp only [List.getElem?_map, hke]
    rfl
  · exact spiderPoints_length _ _ _
  · intro i l hil
    rw [spiderPoints_getElem_lt e0.keys _ e i l hil, mul_comm]
  · obtain ⟨h0, hc⟩ := spiderPoints_head_and_closing e0.keys
      (360 / (e0.keys.length : ℚ)) e hk
    rw [h0, hc]
    rfl

/-- C5, witness: one pair and one category. -/
theorem C5_witness :
    ((⟨0, 1, ["A"], fun _ => 1⟩ : SpiderEntry).keys ≠ []) ∧
    (∃ out, update_spider_chart (fun _ => "f") ⟨[], []⟩
        [⟨0, 1, ["A"], fun _ => 1⟩] = .ok out true ∧
      out.series.length =
        [(⟨0, 1, ["A"], fun _ => (1 : ℚ)⟩ : SpiderEntry)].length ∧
      ∀ (k : Nat) (e : SpiderEntry), ([⟨0, 1, ["A"], fun _ => (1 : ℚ)⟩] :
          List SpiderEntry)[k]? = some e →
        ∃ pts : List (ℚ × ℚ), out.series[k]? =
            some ((fun _ : Nat => "f") e.i ++ " vs " ++
              (fun _ : Nat => "f") e.j, pts) ∧
          pts.length =
            (⟨0, 1, ["A"], fun _ => (1 : ℚ)⟩ : SpiderEntry).keys.length + 1 ∧
          (∀ (i : Nat) (l : String), (⟨0, 1, ["A"], fun _ => (1 : ℚ)⟩ :
              SpiderEntry).keys[i]? = some l →
            pts[i]? = some ((i : ℚ) * (360 /
              ((⟨0, 1, ["A"], fun _ => (1 : ℚ)⟩ :
                SpiderEntry).keys.length : ℚ)), e.val l)) ∧
          pts[0]?.map Prod.snd =
            pts[(⟨0, 1, ["A"], fun _ => (1 : ℚ)⟩ :
              SpiderEntry).keys.length]?.map Prod.snd) :=
  ⟨by decide,
   C5_spider_polygon_shape (fun _ => "f") ⟨[], []⟩
     ⟨0, 1, ["A"], fun _ => 1⟩ [] (by decide)⟩

/-- The spider dict entry used to refute C6: values `A ↦ 1`, `B ↦ 2`. -/
def exC6 : SpiderEntry := ⟨0, 1, ["A", "B"], fun l => if l = "A" then 1 else 2⟩

/-- C6, counterexample: with values `A ↦ 1`, `B ↦ 2` the point appended at
angle `360` carries `1` — the y of the *first* point
(`series.points()[0].y()`) — not the value `2` at the final category `B`. -/
theorem C6_counterexample :
    update_spider_chart (fun _ => "f") ⟨[], []⟩ [exC6] =
      .ok ⟨[("f vs f", [(0, 1), (180, 2), (360, 1)])],
           [.angular [("A", 0), ("B", 180)], .radial 0 2]⟩ true ∧
    exC6.val "B" = 2 ∧
    ((1 : ℚ) ≠ 2) := by
  refine ⟨?_, by decide, by norm_num⟩
  norm_num [update_spider_chart, spiderPoints, pyMax, exC6,
    List.range_succ, List.range_zero]
  refine ⟨⟨by decide, by decide⟩, ?_⟩
  rw [if_neg (by decide : ¬ ("B" : String) = "A")]
  exact max_eq_right (by norm_num)

/-- C6, amended: the point appended at angle `360` duplicates the value at
the *first* category (the first axis label), which closes the polygon since
point `0` carries that same value. -/
theorem C6_closing_duplicates_first_value (fd : Nat → String)
    (st : SpiderChart) (e0 : SpiderEntry) (rest : List SpiderEntry)
    (hk : e0.keys ≠ []) :
    ∃ out, update_spider_chart fd st (e0 :: rest) = .ok out true ∧
      ∀ (k : Nat) (e : SpiderEntry), (e0 :: rest)[k]? = some e →
        ∃ pts : List (ℚ × ℚ), out.series[k]? = some (fd e.i ++ " vs " ++ fd e.j, pts) ∧
          pts[e0.keys.length]? = some (360, e.val (e0.keys.headD "")) ∧
          pts[0]? = some (0, e.val (e0.keys.headD "")) := by
  obtain ⟨m, hm⟩ := update_spider_chart_cons_eq fd st e0 rest hk
  refine ⟨_, hm, ?_⟩
  intro k e hke
  refine ⟨spiderPoints e0.keys (360 / (e0.keys.length : ℚ)) e, ?_, ?_, ?_⟩
  · simp only [List.getElem?_map, hke]
    rfl
  · exact (spiderPoints_head_and_closing e0.keys _ e hk).2
  · have h0 := (spiderPoints_head_and_closing e0.keys
      (360 / (e0.keys.length : ℚ)) e hk).1
    rwa [mul_zero] at h0

/-- C6, witness for the amended theorem: one pair with categories `A, B`. -/
theorem C6_witness :
    (exC6.keys ≠ []) ∧
    (∃ out, update_spider_chart (fun _ => "g") ⟨[], []⟩ [exC6] =
        .ok out true ∧
      ∀ (k : Nat) (e : SpiderEntry), ([exC6] : List SpiderEntry)[k]? = some e →
        ∃ pts : List (ℚ × ℚ), out.series[k]? =
            some ((fun _ : Nat => "g") e.i ++ " vs " ++
              (fun _ : Nat => "g") e.j, pts) ∧
          pts[exC6.keys.length]? = some (360, e.val (exC6.keys.headD "")) ∧
          pts[0]? = some (0, e.val (exC6.keys.headD ""))) :=
  ⟨by decide,
   C6_closing_duplicates_first_value (fun _ => "g") ⟨[], []⟩ exC6 []
     (by decide)⟩

/-- A table whose first row has a zero total while the final row keeps both
columns retained, so the non-finite first-row ratios reach the emitted
points. -/
def exC3 : SheetData := ⟨[0, 1], ["A", "B"], [[0, 0], [30, 70]]⟩

/-- C3, code evaluation at the failing input: a row with a zero total makes
`cumulative_percents` non-finite (`0/0` is `NaN` in pandas, modelled `none`)
for every column, and `update_area_chart` emits those non-finite values in
its points instead of the `0` the claim requires. -/
theorem C3_zero_total_row_is_nonfinite :
    totalCounts [(0 : ℚ), 0] = 0 ∧
    cumPercent [(0 : ℚ), 0] 0 = none ∧
    cumPercent [(0 : ℚ), 0] 1 = none ∧
    update_area_chart exC3 =
      [(0, "A", [(0, none), (1, some 30)]),
       (1, "B", [(0, none), (1, some 100)])] := by
  refine ⟨by norm_num [totalCounts], ?_, ?_, ?_⟩
  · norm_num [cumPercent, cumsumAt, totalCounts, pandasDiv]
  · norm_num [cumPercent, cumsumAt, totalCounts, pandasDiv]
  · norm_num [update_area_chart, lastRow, seriesPoints, exC3,
      cumPercent, cumsumAt, totalCounts, pandasDiv,
      List.range_succ, List.filterMap_cons]

/-- Metadata of one JSD comparison series, `jsd_model.column_infos[c]`. -/
structure ColumnInfo where
  file1 : String
  file2 : String
  category : String
deriving DecidableEq

/-- A cell range of the table grid, `QRect(x, y, w, h)`. -/
structure QRect where
  x : Nat
  y : Nat
  w : Nat
  h : Nat
deriving DecidableEq

/-- The slice of the table model (`jsd_model`) that
`update_jsd_timeline_plot` reads and writes: `dateCell col i` is the raw
date cell `input_data[col][i]` of an even (date) column, `valueCell col i`
the numeric cell of an odd (value) column, `row_count col` is
`rowCount(createIndex(0, col))`, and `color_mapping` the mapping the model
class maintains. -/
structure JsdModel where
  column_infos : List ColumnInfo
  dateCell : Nat → Nat → Int
  valueCell : Nat → Nat → ℚ
  row_count : Nat → Nat
  color_mapping : List (String × QRect)

/-- Modelled from the spec: `clear_color_mapping` belongs to the table-model
class, which is not among the visible sources; per §4.4 the color mapping is
an ordered sequence of `(color, cell range)` entries that is discarded as a
whole, so clearing empties the sequence. -/
def clear_color_mapping (m : JsdModel) : JsdModel :=
  { m with color_mapping := [] }

/-- Modelled from the spec: `add_color_mapping(color, rect)` records one
`(color, cell range)` entry, appended to the ordered sequence. -/
def add_color_mapping (m : JsdModel) (color : String) (r : QRect) : JsdModel :=
  { m with color_mapping := m.color_mapping ++ [(color, r)] }

/-- The points of the time-line series for comparison `c`: one point per row
whose date cell converts to milliseconds (`convert_date_to_milliseconds` not
`None`), pairing the converted date of column `2c` with the value of column
`2c + 1`.  `conv` models the external `convert_date_to_milliseconds`. -/
def timelinePoints (conv : Int → Option Int) (m : JsdModel) (c : Nat) :
    List (Int × ℚ) :=
  (List.range (m.row_count (2 * c))).filterMap (fun i =>
    (conv (m.dateCell (2 * c) i)).map
      (fun t => (t, m.valueCell (2 * c + 1) i)))

/-- `JsdWindow.update_jsd_timeline_plot` (`jsdview.py`) restricted to the
data it derives: clear the color mapping, then for each `column_infos` entry
`c` (reading grid columns `2c` and `2c + 1`) build one named series and add
one `(pen color, QRect(2c, 0, 2, row_count))` mapping entry.  `penColor c`
models `series.pen().color().name()` of the `c`-th added series.  Returns
the new model state and the series list. -/
def update_jsd_timeline_plot (penColor : Nat → String)
    (conv : Int → Option Int) (m : JsdModel) :
    JsdModel × List (String × List (Int × ℚ)) :=
  let entries := m.column_infos.enum.map (fun ci =>
    ((penColor ci.1, QRect.mk (2 * ci.1) 0 2 (m.row_count (2 * ci.1))),
     (ci.2.file1 ++ " vs " ++ ci.2.file2 ++ " " ++ ci.2.category ++ " JSD",
      timelinePoints conv m ci.1)))
  ((entries.map Prod.fst).foldl
      (fun acc e => add_color_mapping acc e.1 e.2) (clear_color_mapping m),
   entries.map Prod.snd)

theorem foldl_add_color_mapping (l : List (String × QRect)) (m : JsdModel) :
    (l.foldl (fun acc e => add_color_mapping acc e.1 e.2) m).color_mapping =
      m.color_mapping ++ l := by
  induction l generalizing m with
  | nil => simp
  | cons a t ih =>
      rw [List.foldl_cons, ih]
      simp [add_color_mapping]

/-- C9: each run of `update_jsd_timeline_plot` leaves exactly one
`(color, cell range)` entry per rendered series, entry `c` covering the two
adjacent grid columns `2c` and `2c + 1` over all `row_count` rows from row
0; and the mapping is rebuilt from scratch — the result never depends on the
mapping held before the call. -/
theorem C9_color_mapping_rebuilt_per_series (penColor : Nat → String)
    (conv : Int → Option Int) (m : JsdModel) :
    ((update_jsd_timeline_plot penColor conv m).1.color_mapping.length =
      (update_jsd_timeline_plot penColor conv m).2.length) ∧
    ((update_jsd_timeline_plot penColor conv m).1.color_mapping =
      (List.range m.column_infos.length).map (fun c =>
        (penColor c, QRect.mk (2 * c) 0 2 (m.row_count (2 * c))))) ∧
    (∀ cm : List (String × QRect),
      (update_jsd_timeline_plot penColor conv
          { m with color_mapping := cm }).1.color_mapping =
        (update_jsd_timeline_plot penColor conv m).1.color_mapping) := by
  refine ⟨?_, ?_, ?_⟩
  · simp [update_jsd_timeline_plot, foldl_add_color_mapping,
      clear_color_mapping]
  · simp only [update_jsd_timeline_plot, foldl_add_color_mapping,
      clear_color_mapping, List.nil_append]
    rw [List.enum_eq_zip_range, List.map_map]
    rw [show (Prod.fst ∘ fun ci : Nat × ColumnInfo =>
        ((penColor ci.1, QRect.mk (2 * ci.1) 0 2 (m.row_count (2 * ci.1))),
         (ci.2.file1 ++ " vs " ++ ci.2.file2 ++ " " ++ ci.2.category ++
            " JSD", timelinePoints conv m ci.1))) =
        ((fun c => (penColor c,
            QRect.mk (2 * c) 0 2 (m.row_count (2 * c)))) ∘ Prod.fst)
      from rfl]
    rw [← List.map_map]
    rw [List.map_fst_zip _ _ (by simp)]
  · intro cm
    simp [update_jsd_timeline_plot, foldl_add_color_mapping,
      clear_color_mapping, timelinePoints]

/-- A pandas DataFrame as `excelparse` sees it: named columns in sheet
order, each with its cell values. -/
structure DataFrame where
  cols : List (String × List ℚ)
deriving DecidableEq

/-- `'(%)' in col`, the substring test selecting percentage columns. -/
def hasPct (s : String) : Bool := containsSub "(%)".toList s.toList

/-- `df[names]`: select the named columns in the given order, keeping every
row of each; `none` models the pandas `KeyError` raised when a requested
column is missing. -/
def dfSelect (df : DataFrame) (names : List String) : Option DataFrame :=
  if names.all (fun n => (df.cols.lookup n).isSome) then
    some ⟨names.map (fun n => (n, (df.cols.lookup n).getD []))⟩
  else none

/-- `excelparse.excelparse` after the external spreadsheet read: keep the
`date` column followed by exactly those columns whose name contains the
substring `'(%)'`, in their original sheet order
(`df[['date'] + pct_cols]`). -/
def excelparse (df : DataFrame) : Option DataFrame :=
  dfSelect df ("date" :: (df.cols.map Prod.fst).filter (fun c => hasPct c))

theorem lookup_isSome_of_mem_keys {β : Type} (l : List (String × β))
    (a : String) (h : a ∈ l.map Prod.fst) : (l.lookup a).isSome := by
  induction l with
  | nil => simp at h
  | cons p t ih =>
      simp only [List.map_cons, List.mem_cons] at h
      by_cases hb : a = p.1
      · simp [List.lookup, hb]
      · have hbeq : (a == p.1) = false := beq_eq_false_iff_ne.mpr hb
        have hmem : a ∈ t.map Prod.fst := h.resolve_left hb
        simpa [List.lookup, hbeq] using ih hmem

/-- C10: on any frame containing a `date` column, `excelparse` succeeds and
returns a frame whose columns are exactly `date` followed by the columns
whose names contain `'(%)'`, in original order, each with its source values
(all rows preserved); every other column is excluded. -/
theorem C10_excelparse_selects_date_and_pct (df : DataFrame)
    (hdate : ("date" : String) ∈ df.cols.map Prod.fst) :
    ∃ out, excelparse df = some out ∧
      out.cols.map Prod.fst =
        "date" :: (df.cols.map Prod.fst).filter (fun c => hasPct c) ∧
      ∀ p ∈ out.cols, df.cols.lookup p.1 = some p.2 := by
  have hall : ("date" :: (df.cols.map Prod.fst).filter
      (fun c => hasPct c)).all (fun n => (df.cols.lookup n).isSome) = true := by
    rw [List.all_eq_true]
    intro n hn
    rcases List.mem_cons.mp hn with h | h
    · subst h
      exact lookup_isSome_of_mem_keys df.cols "date" hdate
    · exact lookup_isSome_of_mem_keys df.cols n (List.mem_of_mem_filter h)
  refine ⟨⟨("date" :: (df.cols.map Prod.fst).filter
      (fun c => hasPct c)).map (fun n => (n, (df.cols.lookup n).getD []))⟩,
    ?_, ?_, ?_⟩
  · rw [excelparse, dfSelect, if_pos hall]
  · simp [List.map_map, Function.comp_def]
  · intro p hp
    simp only [List.mem_map] at hp
    obtain ⟨n, hn, rfl⟩ := hp
    have hsome : (df.cols.lookup n).isSome :=
      (List.all_eq_true.mp hall) n hn
    obtain ⟨v, hv⟩ := Option.isSome_iff_exists.mp hsome
    simp [hv]

/-- C10, witness at a concrete frame with one percentage column and one
excluded count column. -/
theorem C10_witness :
    (("date" : String) ∈
      (⟨[("date", [1]), ("Male (%)", [2]), ("count", [3])]⟩ :
        DataFrame).cols.map Prod.fst) ∧
    (∃ out, excelparse
        ⟨[("date", [1]), ("Male (%)", [2]), ("count", [3])]⟩ = some out ∧
      out.cols.map Prod.fst =
        "date" :: ((⟨[("date", [1]), ("Male (%)", [2]), ("count", [3])]⟩ :
          DataFrame).cols.map Prod.fst).filter (fun c => hasPct c) ∧
      ∀ p ∈ out.cols,
        (⟨[("date", [1]), ("Male (%)", [2]), ("count", [3])]⟩ :
          DataFrame).cols.lookup p.1 = some p.2) :=
  ⟨by decide,
   C10_excelparse_selects_date_and_pct
     ⟨[("date", [1]), ("Male (%)", [2]), ("count", [3])]⟩ (by decide)⟩
